import Mathlib

/-!
Shallow embedding of `src/main/c/ShmCreate.c` from appose-java: a minimal
POSIX shared-memory helper (`create_shared_memory`, `get_shared_memory_size`,
`unlink_shared_memory`, and a demonstration `main`).

The OS shared-memory facility is modelled explicitly as a state:
a namespace mapping names to object ids, a table of object sizes, and a
table of open file descriptors.  Each POSIX call (`shm_open`, `fstat`,
`ftruncate`, `shm_unlink`) may also fail spuriously; those failure modes
are injected through a `Faults` record so that the error-handling paths of
the C code become reachable in the model.  Diagnostics printed via
`perror` are modelled as a list of emitted operation names.
-/

namespace ShmCreate

/-- Lookup in an association list, first binding wins. -/
def findVal {α β : Type} [DecidableEq α] (k : α) : List (α × β) → Option β
  | [] => none
  | (a, b) :: rest => if a = k then some b else findVal k rest

/-- Update (or insert) the binding of a key in an association list. -/
def setVal {α β : Type} [DecidableEq α] (k : α) (v : β) : List (α × β) → List (α × β)
  | [] => [(k, v)]
  | (a, b) :: rest => if a = k then (k, v) :: rest else (a, b) :: setVal k v rest

/-- Remove every binding of a key from an association list. -/
def delKey {α β : Type} [DecidableEq α] (k : α) : List (α × β) → List (α × β)
  | [] => []
  | (a, b) :: rest => if a = k then delKey k rest else (a, b) :: delKey k rest

/-- The OS-level shared-memory state: the shm namespace (name to object id),
the size of each live object, and the table of open descriptors. -/
structure ShmState where
  nextFd : Nat
  nextObj : Nat
  names : List (String × Nat)
  objSizes : List (Nat × Int)
  fds : List (Nat × Nat)
  deriving Repr, DecidableEq

/-- Spurious-failure injection for each of the four POSIX calls the C file
makes, so that every `perror` branch of the code is reachable. -/
structure Faults where
  openFail : Bool
  statFail : Bool
  truncFail : Bool
  unlinkFail : Bool
  deriving Repr, DecidableEq

/-- A run in which every OS call succeeds (when its arguments are valid). -/
def noFaults : Faults := ⟨false, false, false, false⟩

/-- The empty OS state: no names, no objects, no open descriptors. -/
def shmInit : ShmState := ⟨0, 0, [], [], []⟩

/-- POSIX `shm_open(name, O_CREAT | O_RDWR, 0666)`: open the named object,
creating it with size 0 if the name is unbound; returns a fresh descriptor,
or failure (`none`, modelling a -1 return with `errno` set). -/
def shm_open (f : Faults) (s : ShmState) (name : String) : Option Nat × ShmState :=
  if f.openFail then (none, s)
  else
    match findVal name s.names with
    | some o =>
      (some s.nextFd, { s with nextFd := s.nextFd + 1, fds := setVal s.nextFd o s.fds })
    | none =>
      (some s.nextFd,
       { s with
          nextFd := s.nextFd + 1
          nextObj := s.nextObj + 1
          names := setVal name s.nextObj s.names
          objSizes := setVal s.nextObj 0 s.objSizes
          fds := setVal s.nextFd s.nextObj s.fds })

/-- POSIX `fstat` restricted to the `st_size` field: report the current size
of the object behind an open descriptor, or failure. -/
def fstatSize (f : Faults) (s : ShmState) (fd : Int) : Option Int :=
  if f.statFail then none
  else if fd < 0 then none
  else
    match findVal fd.toNat s.fds with
    | none => none
    | some o => findVal o s.objSizes

/-- POSIX `ftruncate(fd, size)`: set the size of the object behind an open
descriptor; fails on a negative length or an invalid descriptor. -/
def ftruncate (f : Faults) (s : ShmState) (fd : Int) (size : Int) : Option ShmState :=
  if f.truncFail then none
  else if size < 0 then none
  else if fd < 0 then none
  else
    match findVal fd.toNat s.fds with
    | none => none
    | some o => some { s with objSizes := setVal o size s.objSizes }

/-- POSIX `close(fd)`: remove the descriptor from the open-descriptor table. -/
def closeFd (s : ShmState) (fd : Nat) : ShmState :=
  { s with fds := delKey fd s.fds }

/-- POSIX `shm_unlink(name)`: remove the name from the shm namespace (open
descriptors to the object stay valid); fails if the name is unbound. -/
def shm_unlink (f : Faults) (s : ShmState) (name : String) : Option ShmState :=
  if f.unlinkFail then none
  else
    match findVal name s.names with
    | none => none
    | some _ => some { s with names := delKey name s.names }

/-- Embedding of the C function `get_shared_memory_size(fd)`: `fstat` the
descriptor; on failure print `perror("fstat")` and return -1, otherwise
return `st_size`.  It takes no lock and mutates no OS state. -/
def get_shared_memory_size (f : Faults) (s : ShmState) (fd : Int) : Int × List String :=
  match fstatSize f s fd with
  | none => (-1, ["fstat"])
  | some sz => (sz, [])

/-- Embedding of the C function `create_shared_memory(name, size)`:
`shm_open` with `O_CREAT | O_RDWR` and mode 0666 (on failure
`perror("shm_open")`, return -1); query the size of the just-opened
descriptor; if it is already positive return the descriptor as-is;
otherwise `ftruncate` to the requested size (on failure
`perror("ftruncate")`, `close(fd)`, return -1); on success return the
descriptor.  The result is the returned int, the OS state after the call,
and the diagnostics printed during it. -/
def create_shared_memory (f : Faults) (s : ShmState) (name : String) (size : Int) :
    Int × ShmState × List String :=
  match shm_open f s name with
  | (none, s1) => (-1, s1, ["shm_open"])
  | (some fd, s1) =>
    let q := get_shared_memory_size f s1 (Int.ofNat fd)
    if q.1 > 0 then (Int.ofNat fd, s1, q.2)
    else
      match ftruncate f s1 (Int.ofNat fd) size with
      | none => (-1, closeFd s1 fd, q.2 ++ ["ftruncate"])
      | some s2 => (Int.ofNat fd, s2, q.2)

/-- Embedding of the C function `unlink_shared_memory(name)`: `shm_unlink`
the name; on failure `perror("shm_unlink")` and return normally (the
function is `void` and never aborts the caller). -/
def unlink_shared_memory (f : Faults) (s : ShmState) (name : String) : ShmState × List String :=
  match shm_unlink f s name with
  | none => (s, ["shm_unlink"])
  | some s2 => (s2, [])

/-- Embedding of the C demonstration `main`: create `"/myshm"` with size
1024; if that fails `exit(EXIT_FAILURE)` (status 1); otherwise close the
descriptor, unlink the name, and return 0.  The result is the process exit
status, the final OS state, and the diagnostics printed. -/
def cMain (f : Faults) (s : ShmState) : Nat × ShmState × List String :=
  let r := create_shared_memory f s "/myshm" 1024
  if r.1 < 0 then (1, r.2.1, r.2.2)
  else
    let s2 := closeFd r.2.1 r.1.toNat
    let u := unlink_shared_memory f s2 "/myshm"
    (0, u.1, r.2.2 ++ u.2)

/-! Association-list lemmas used throughout. -/

theorem findVal_setVal_self {α β : Type} [DecidableEq α] (k : α) (v : β) (l : List (α × β)) :
    findVal k (setVal k v l) = some v := by
  induction l with
  | nil => simp [setVal, findVal]
  | cons p rest ih =>
    obtain ⟨a, b⟩ := p
    by_cases h : a = k <;> simp [setVal, findVal, h, ih]

theorem findVal_delKey_self {α β : Type} [DecidableEq α] (k : α) (l : List (α × β)) :
    findVal k (delKey k l) = none := by
  induction l with
  | nil => simp [delKey, findVal]
  | cons p rest ih =>
    obtain ⟨a, b⟩ := p
    by_cases h : a = k <;> simp [delKey, findVal, h, ih]

/-! Helper lemmas about the embedded operations. -/

/-- A fault-free `create_shared_memory` on a name not yet in the namespace,
with a non-negative requested size, creates a fresh object of that size and
returns the fresh descriptor. -/
theorem create_fresh_eq (s : ShmState) (name : String) (size : Int)
    (hn : findVal name s.names = none) (hsz : 0 ≤ size) :
    create_shared_memory noFaults s name size =
      (Int.ofNat s.nextFd,
       { nextFd := s.nextFd + 1
         nextObj := s.nextObj + 1
         names := setVal name s.nextObj s.names
         objSizes := setVal s.nextObj size (setVal s.nextObj 0 s.objSizes)
         fds := setVal s.nextFd s.nextObj s.fds },
       []) := by
  simp [create_shared_memory, shm_open, get_shared_memory_size, fstatSize, ftruncate,
    noFaults, hn, findVal_setVal_self, Int.not_lt.mpr (Int.ofNat_nonneg s.nextFd),
    Int.not_lt.mpr hsz]

/-- `unlink_shared_memory` never touches the descriptor table. -/
theorem unlink_fds (f : Faults) (s : ShmState) (name : String) :
    (unlink_shared_memory f s name).1.fds = s.fds := by
  cases hf : f.unlinkFail <;>
    cases hn : findVal name s.names <;>
      simp [unlink_shared_memory, shm_unlink, hf, hn]

/-- A fault-free `create_shared_memory` on a name bound to an object whose
recorded size is positive returns the fresh descriptor as-is: only the
descriptor table gains a binding. -/
theorem create_existing_eq (f : Faults) (s : ShmState) (name : String) (o : Nat)
    (sz req : Int)
    (hof : f.openFail = false) (hst : f.statFail = false)
    (hn : findVal name s.names = some o) (ho : findVal o s.objSizes = some sz)
    (hsz : 0 < sz) :
    create_shared_memory f s name req =
      (Int.ofNat s.nextFd,
       { s with nextFd := s.nextFd + 1, fds := setVal s.nextFd o s.fds }, []) := by
  simp [create_shared_memory, shm_open, get_shared_memory_size, fstatSize,
    hof, hst, hn, ho, findVal_setVal_self, hsz,
    Int.not_lt.mpr (Int.ofNat_nonneg s.nextFd)]

/-- The size query on an open descriptor with the stat call succeeding
reports the recorded size of the object behind it. -/
theorem query_eq (f : Faults) (s : ShmState) (fd o : Nat) (sz : Int)
    (hst : f.statFail = false)
    (hfd : findVal fd s.fds = some o) (ho : findVal o s.objSizes = some sz) :
    get_shared_memory_size f s (Int.ofNat fd) = (sz, []) := by
  simp [get_shared_memory_size, fstatSize, hst, hfd, ho,
    Int.not_lt.mpr (Int.ofNat_nonneg fd)]

/-- A key that `findVal` resolves is bound in the association list. -/
theorem findVal_mem {α β : Type} [DecidableEq α] (k : α) (v : β) (l : List (α × β))
    (h : findVal k l = some v) : (k, v) ∈ l := by
  induction l with
  | nil => simp [findVal] at h
  | cons p rest ih =>
    obtain ⟨a, b⟩ := p
    unfold findVal at h
    split at h
    · injection h with hv
      subst hv
      simp_all
    · exact List.mem_cons_of_mem _ (ih h)

/-- A successful `ftruncate` changes only the object-size table. -/
theorem ftruncate_preserves (f : Faults) (s : ShmState) (fd size : Int) (s2 : ShmState)
    (h : ftruncate f s fd size = some s2) :
    s2.names = s.names ∧ s2.fds = s.fds ∧ s2.nextFd = s.nextFd ∧ s2.nextObj = s.nextObj := by
  unfold ftruncate at h
  split at h
  · simp at h
  · split at h
    · simp at h
    · split at h
      · simp at h
      · split at h
        · simp at h
        · injection h with h2
          subst h2
          simp

/-- A successful `shm_open` returns a descriptor bound to the object the
name resolves to, and leaves the name bound in the namespace. -/
theorem shm_open_success (f : Faults) (s : ShmState) (name : String) (fd : Nat) (s1 : ShmState)
    (h : shm_open f s name = (some fd, s1)) :
    ∃ o, findVal fd s1.fds = some o ∧ findVal name s1.names = some o := by
  unfold shm_open at h
  split at h
  · simp at h
  · split at h
    case h_1 o ho =>
      injection h with h1 h2
      injection h1 with h1
      subst h1
      subst h2
      exact ⟨o, findVal_setVal_self _ _ _, ho⟩
    case h_2 ho =>
      injection h with h1 h2
      injection h1 with h1
      subst h1
      subst h2
      exact ⟨s.nextObj, findVal_setVal_self _ _ _, findVal_setVal_self _ _ _⟩

/-- Every run of `create_shared_memory` either returns the -1 sentinel or a
non-negative descriptor that is open in the resulting state, with the name
bound in the namespace of the resulting state. -/
theorem create_cases (f : Faults) (s : ShmState) (name : String) (size : Int) :
    (create_shared_memory f s name size).1 = -1 ∨
    (0 ≤ (create_shared_memory f s name size).1 ∧
     (findVal (create_shared_memory f s name size).1.toNat
        (create_shared_memory f s name size).2.1.fds).isSome = true ∧
     (findVal name (create_shared_memory f s name size).2.1.names).isSome = true) := by
  rcases hso : shm_open f s name with ⟨ofd, s1⟩
  cases ofd with
  | none => left; simp [create_shared_memory, hso]
  | some fd =>
    obtain ⟨o, hfd2, hnm⟩ := shm_open_success f s name fd s1 hso
    by_cases hq : (get_shared_memory_size f s1 (Int.ofNat fd)).1 > 0
    · right
      simp only [create_shared_memory, hso]
      rw [if_pos hq]
      exact ⟨Int.ofNat_nonneg fd, by simp [Int.toNat_ofNat, hfd2], by simp [hnm]⟩
    · simp only [create_shared_memory, hso]
      rw [if_neg hq]
      cases hft : ftruncate f s1 (Int.ofNat fd) size with
      | none => left; simp [hft]
      | some s2 =>
        right
        obtain ⟨e1, e2, _, _⟩ := ftruncate_preserves f s1 (Int.ofNat fd) size s2 hft
        exact ⟨by simp [hft, Int.ofNat_nonneg fd],
          by simp [hft, Int.toNat_ofNat, e2, hfd2],
          by simp [hft, e1, hnm]⟩

/-! Claim theorems. -/

/-- Claim C6: when the underlying OS open/create call fails,
`create_shared_memory` returns the -1 invalid-descriptor sentinel
immediately, with the OS state untouched (so neither the size query nor any
resize was performed) and only the `shm_open` diagnostic emitted. -/
theorem C6_open_failure (f : Faults) (s : ShmState) (name : String) (size : Int)
    (h : f.openFail = true) :
    create_shared_memory f s name size = (-1, s, ["shm_open"]) := by
  simp [create_shared_memory, shm_open, h]

/-- Witness for C6 at a concrete input. -/
theorem C6_open_failure_witness :
    create_shared_memory ⟨true, false, false, false⟩ shmInit "/w" 9 =
      (-1, shmInit, ["shm_open"]) :=
  C6_open_failure ⟨true, false, false, false⟩ shmInit "/w" 9 rfl

/-- Claim C7: when the OS `shm_unlink` call fails (for example, the name
was never created), `unlink_shared_memory` reports the failure through its
diagnostic and returns normally with the state unchanged: the failure is
non-fatal and performs no other state change. -/
theorem C7_unlink_nonfatal (f : Faults) (s : ShmState) (name : String)
    (h : f.unlinkFail = true ∨ findVal name s.names = none) :
    unlink_shared_memory f s name = (s, ["shm_unlink"]) := by
  rcases h with h | h
  · simp [unlink_shared_memory, shm_unlink, h]
  · cases hf : f.unlinkFail <;> simp [unlink_shared_memory, shm_unlink, h, hf]

/-- Witness for C7 at a concrete input: unlinking a never-created name. -/
theorem C7_unlink_nonfatal_witness :
    unlink_shared_memory noFaults shmInit "/never" = (shmInit, ["shm_unlink"]) :=
  C7_unlink_nonfatal noFaults shmInit "/never" (Or.inr rfl)

/-- Claim C8: `get_shared_memory_size` returns the object's recorded size,
which is non-negative whenever every recorded size in the state is, when
the status query succeeds, and returns the -1 negative-size sentinel with
the `fstat` diagnostic when the status query fails; it takes the state as
input only and returns no state, so it has no side effects. -/
theorem C8_query_size (f : Faults) (s : ShmState) (fd : Int)
    (hwf : ∀ p ∈ s.objSizes, 0 ≤ p.2) :
    (∀ z, fstatSize f s fd = some z →
      get_shared_memory_size f s fd = (z, []) ∧ 0 ≤ z) ∧
    (fstatSize f s fd = none → get_shared_memory_size f s fd = (-1, ["fstat"])) := by
  constructor
  · intro z hz
    refine ⟨by simp [get_shared_memory_size, hz], ?_⟩
    unfold fstatSize at hz
    split at hz
    · simp at hz
    · split at hz
      · simp at hz
      · split at hz
        · simp at hz
        · exact hwf _ (findVal_mem _ _ _ hz)
  · intro hz
    simp [get_shared_memory_size, hz]

/-- Witness for C8 at concrete inputs: one successful query and one failing
query on a one-object state. -/
theorem C8_query_size_witness :
    (get_shared_memory_size noFaults ⟨1, 1, [("/t", 0)], [(0, 7)], [(0, 0)]⟩ 0 = (7, []) ∧
      (0 : Int) ≤ 7) ∧
    get_shared_memory_size ⟨false, true, false, false⟩ ⟨1, 1, [("/t", 0)], [(0, 7)], [(0, 0)]⟩ 0 =
      (-1, ["fstat"]) :=
  ⟨(C8_query_size noFaults ⟨1, 1, [("/t", 0)], [(0, 7)], [(0, 0)]⟩ 0 (by decide)).1 7 (by decide),
   (C8_query_size ⟨false, true, false, false⟩ ⟨1, 1, [("/t", 0)], [(0, 7)], [(0, 0)]⟩ 0
      (by decide)).2 (by decide)⟩

/-- Counterexample to claim C2 as stated: on the empty state with the
`fstat` call failing, `create_shared_memory` does not fail with a stat
error: it returns descriptor 0 (a success) and proceeds to the resize step,
recording the requested size 5 for the new object. -/
theorem C2_counterexample :
    (create_shared_memory ⟨false, true, false, false⟩ shmInit "/x" 5).1 = 0 ∧
    findVal 0 (create_shared_memory ⟨false, true, false, false⟩ shmInit "/x" 5).2.1.objSizes =
      some 5 := by
  decide

/-- Claim C2 as amended: when the post-open size query fails, the code
reports the `fstat` diagnostic but does not abort: the query's -1 sentinel
is not greater than zero, so `create_shared_memory` treats the object as
unsized and proceeds to the resize step, resizing the object the name
resolved to (the pre-existing one, or the freshly created one) to the
requested size and returning the descriptor when the resize succeeds. -/
theorem C2_stat_failure_resizes (f : Faults) (s : ShmState) (name : String) (size : Int)
    (hof : f.openFail = false) (hst : f.statFail = true) (htr : f.truncFail = false)
    (hsz : 0 ≤ size) :
    (create_shared_memory f s name size).1 = Int.ofNat s.nextFd ∧
    (create_shared_memory f s name size).2.2 = ["fstat"] ∧
    findVal (match findVal name s.names with | some o => o | none => s.nextObj)
      (create_shared_memory f s name size).2.1.objSizes = some size := by
  cases hn : findVal name s.names <;>
    simp [create_shared_memory, shm_open, get_shared_memory_size, fstatSize, ftruncate,
      hof, hst, htr, hn, findVal_setVal_self, Int.not_lt.mpr hsz,
      Int.not_lt.mpr (Int.ofNat_nonneg s.nextFd)]

/-- Witness for the amended C2 at a concrete input. -/
theorem C2_stat_failure_resizes_witness :
    (create_shared_memory ⟨false, true, false, false⟩ shmInit "/x" 5).1 = Int.ofNat 0 ∧
    (create_shared_memory ⟨false, true, false, false⟩ shmInit "/x" 5).2.2 = ["fstat"] ∧
    findVal (match findVal "/x" shmInit.names with | some o => o | none => shmInit.nextObj)
      (create_shared_memory ⟨false, true, false, false⟩ shmInit "/x" 5).2.1.objSizes = some 5 :=
  C2_stat_failure_resizes ⟨false, true, false, false⟩ shmInit "/x" 5 rfl rfl rfl (by decide)

/-- Claim C1: first-writer-wins sizing. When the name resolves to an object
whose queried size is positive, `create_shared_memory` returns the freshly
opened descriptor as-is: the resulting state differs from the input only by
the new descriptor binding, so the object's recorded size is unchanged
regardless of the requested size.  In particular, two successive calls on
a fresh name with different requested sizes (the first one positive) yield
a descriptor whose queried size equals the first call's requested size. -/
theorem C1_first_writer_wins :
    (∀ (f : Faults) (s : ShmState) (name : String) (o : Nat) (sz req : Int),
      f.openFail = false → f.statFail = false →
      findVal name s.names = some o → findVal o s.objSizes = some sz → 0 < sz →
      create_shared_memory f s name req =
        (Int.ofNat s.nextFd,
         { s with nextFd := s.nextFd + 1, fds := setVal s.nextFd o s.fds }, [])) ∧
    (∀ (s : ShmState) (name : String) (sz1 sz2 : Int),
      findVal name s.names = none → 0 < sz1 → sz1 ≠ sz2 →
      get_shared_memory_size noFaults
        (create_shared_memory noFaults (create_shared_memory noFaults s name sz1).2.1 name sz2).2.1
        (create_shared_memory noFaults (create_shared_memory noFaults s name sz1).2.1 name sz2).1 =
        (sz1, [])) := by
  constructor
  · intro f s name o sz req hof hst hn ho hsz
    exact create_existing_eq f s name o sz req hof hst hn ho hsz
  · intro s name sz1 sz2 hn hsz1 hne
    rw [create_fresh_eq s name sz1 hn (le_of_lt hsz1)]
    rw [create_existing_eq noFaults _ name s.nextObj sz1 sz2 rfl rfl
      (findVal_setVal_self _ _ _) (findVal_setVal_self _ _ _) hsz1]
    exact query_eq noFaults _ _ s.nextObj sz1 rfl
      (findVal_setVal_self _ _ _) (findVal_setVal_self _ _ _)

/-- Witness for C1 at concrete inputs: an already-sized object is returned
as-is, and the 4096-then-8192 double create still queries as 4096. -/
theorem C1_first_writer_wins_witness :
    create_shared_memory noFaults ⟨1, 1, [("/t", 0)], [(0, 4096)], []⟩ "/t" 8192 =
      (Int.ofNat 1,
       { (⟨1, 1, [("/t", 0)], [(0, 4096)], []⟩ : ShmState) with
          nextFd := 2, fds := setVal 1 0 [] }, []) ∧
    get_shared_memory_size noFaults
      (create_shared_memory noFaults
        (create_shared_memory noFaults shmInit "/t" 4096).2.1 "/t" 8192).2.1
      (create_shared_memory noFaults
        (create_shared_memory noFaults shmInit "/t" 4096).2.1 "/t" 8192).1 =
      (4096, []) :=
  ⟨C1_first_writer_wins.1 noFaults ⟨1, 1, [("/t", 0)], [(0, 4096)], []⟩ "/t" 0 4096 8192
      rfl rfl (by decide) (by decide) (by decide),
   C1_first_writer_wins.2 shmInit "/t" 4096 8192 (by decide) (by decide) (by decide)⟩

/-- Claim C3: on a non-empty fresh name with a positive requested size and
every OS call succeeding, one `create_shared_memory` followed by a size
query on the returned descriptor yields exactly the requested size. -/
theorem C3_create_then_query (s : ShmState) (name : String) (size : Int)
    (_hname : name ≠ "") (hn : findVal name s.names = none) (hsz : 0 < size) :
    0 ≤ (create_shared_memory noFaults s name size).1 ∧
    get_shared_memory_size noFaults (create_shared_memory noFaults s name size).2.1
      (create_shared_memory noFaults s name size).1 = (size, []) := by
  rw [create_fresh_eq s name size hn (le_of_lt hsz)]
  simp [get_shared_memory_size, fstatSize, noFaults, findVal_setVal_self,
    Int.not_lt.mpr (Int.ofNat_nonneg s.nextFd)]

/-- Witness for C3 at a concrete input. -/
theorem C3_create_then_query_witness :
    0 ≤ (create_shared_memory noFaults shmInit "/t" 4096).1 ∧
    get_shared_memory_size noFaults (create_shared_memory noFaults shmInit "/t" 4096).2.1
      (create_shared_memory noFaults shmInit "/t" 4096).1 = (4096, []) :=
  C3_create_then_query shmInit "/t" 4096 (by decide) (by decide) (by decide)

/-- Claim C4: when the resize step fails (the open succeeded, the queried
size was not positive, and the truncate fails), `create_shared_memory`
closes the descriptor it had just opened and returns the -1 sentinel: the
caller receives no usable descriptor and the descriptor is not left open. -/
theorem C4_resize_failure_closes (f : Faults) (s : ShmState) (name : String) (size : Int)
    (fd : Nat)
    (hopen : (shm_open f s name).1 = some fd)
    (hq : (get_shared_memory_size f (shm_open f s name).2 (Int.ofNat fd)).1 ≤ 0)
    (hfail : f.truncFail = true ∨ size < 0) :
    (create_shared_memory f s name size).1 = -1 ∧
    findVal fd (create_shared_memory f s name size).2.1.fds = none := by
  rcases hso : shm_open f s name with ⟨ofd, s1⟩
  rw [hso] at hopen hq
  simp only [] at hopen hq
  subst hopen
  have hq2 : ¬ ((get_shared_memory_size f s1 (Int.ofNat fd)).1 > 0) := Int.not_lt.mpr hq
  have hft : ftruncate f s1 (Int.ofNat fd) size = none := by
    rcases hfail with h | h
    · simp [ftruncate, h]
    · cases htf : f.truncFail <;> simp [ftruncate, h, htf]
  simp only [create_shared_memory, hso]
  rw [if_neg hq2]
  simp only [hft]
  simp [closeFd, findVal_delKey_self]

/-- Witness for C4 at a concrete input: a fresh create whose truncate
fails. -/
theorem C4_resize_failure_closes_witness :
    (create_shared_memory ⟨false, false, true, false⟩ shmInit "/w" 7).1 = -1 ∧
    findVal 0 (create_shared_memory ⟨false, false, true, false⟩ shmInit "/w" 7).2.1.fds =
      none :=
  C4_resize_failure_closes ⟨false, false, true, false⟩ shmInit "/w" 7 0
    (by decide) (by decide) (Or.inl rfl)

/-- Claim C5: a fault-free unlink followed by a fault-free create on the
same name behaves as first-time creation: the name no longer resolves in
the namespace after the unlink, and the new (non-negative) size request is
honored — the subsequent size query returns the newly requested size. -/
theorem C5_unlink_then_create (s : ShmState) (name : String) (size : Int) (hsz : 0 ≤ size) :
    findVal name (unlink_shared_memory noFaults s name).1.names = none ∧
    0 ≤ (create_shared_memory noFaults (unlink_shared_memory noFaults s name).1 name size).1 ∧
    get_shared_memory_size noFaults
      (create_shared_memory noFaults (unlink_shared_memory noFaults s name).1 name size).2.1
      (create_shared_memory noFaults (unlink_shared_memory noFaults s name).1 name size).1 =
      (size, []) := by
  have hnone : findVal name (unlink_shared_memory noFaults s name).1.names = none := by
    cases hn : findVal name s.names with
    | none => simp [unlink_shared_memory, shm_unlink, noFaults, hn]
    | some o => simp [unlink_shared_memory, shm_unlink, noFaults, hn, findVal_delKey_self]
  refine ⟨hnone, ?_, ?_⟩ <;>
    rw [create_fresh_eq _ name size hnone hsz] <;>
      simp [get_shared_memory_size, fstatSize, noFaults, findVal_setVal_self,
        Int.not_lt.mpr (Int.ofNat_nonneg _)]

/-- Witness for C5 at a concrete input: unlink an existing 4096-byte object
and re-create it with 2048 bytes. -/
theorem C5_unlink_then_create_witness :
    findVal "/t" (unlink_shared_memory noFaults ⟨1, 1, [("/t", 0)], [(0, 4096)], []⟩ "/t").1.names =
      none ∧
    0 ≤ (create_shared_memory noFaults
          (unlink_shared_memory noFaults ⟨1, 1, [("/t", 0)], [(0, 4096)], []⟩ "/t").1 "/t" 2048).1 ∧
    get_shared_memory_size noFaults
      (create_shared_memory noFaults
        (unlink_shared_memory noFaults ⟨1, 1, [("/t", 0)], [(0, 4096)], []⟩ "/t").1 "/t" 2048).2.1
      (create_shared_memory noFaults
        (unlink_shared_memory noFaults ⟨1, 1, [("/t", 0)], [(0, 4096)], []⟩ "/t").1 "/t" 2048).1 =
      (2048, []) :=
  C5_unlink_then_create ⟨1, 1, [("/t", 0)], [(0, 4096)], []⟩ "/t" 2048 (by decide)

/-- Claim C9: the demonstration entry point exits non-zero exactly when the
initial create fails; on create failure it exits with status 1 without
further work, and on create success it exits 0 after closing the returned
descriptor (the descriptor is no longer open in the final state) and
unlinking the name (when the OS unlink call does not itself fail, the name
is gone from the final namespace); an unlink failure never changes the
exit status. -/
theorem C9_main_exit_status (f : Faults) (s : ShmState) :
    ((cMain f s).1 ≠ 0 ↔ (create_shared_memory f s "/myshm" 1024).1 < 0) ∧
    ((create_shared_memory f s "/myshm" 1024).1 < 0 →
      cMain f s = (1, (create_shared_memory f s "/myshm" 1024).2.1,
                      (create_shared_memory f s "/myshm" 1024).2.2)) ∧
    (0 ≤ (create_shared_memory f s "/myshm" 1024).1 →
      (cMain f s).1 = 0 ∧
      findVal (create_shared_memory f s "/myshm" 1024).1.toNat (cMain f s).2.1.fds = none ∧
      (f.unlinkFail = false → findVal "/myshm" (cMain f s).2.1.names = none)) := by
  by_cases hc : (create_shared_memory f s "/myshm" 1024).1 < 0
  · have hm : cMain f s = (1, (create_shared_memory f s "/myshm" 1024).2.1,
        (create_shared_memory f s "/myshm" 1024).2.2) := by
      simp only [cMain]
      rw [if_pos hc]
    refine ⟨?_, fun _ => hm, fun h => absurd hc (Int.not_lt.mpr h)⟩
    rw [hm]
    simp [hc]
  · have h0 : 0 ≤ (create_shared_memory f s "/myshm" 1024).1 := Int.not_lt.mp hc
    have hm : cMain f s =
        (0,
         (unlink_shared_memory f
           (closeFd (create_shared_memory f s "/myshm" 1024).2.1
             (create_shared_memory f s "/myshm" 1024).1.toNat) "/myshm").1,
         (create_shared_memory f s "/myshm" 1024).2.2 ++
           (unlink_shared_memory f
             (closeFd (create_shared_memory f s "/myshm" 1024).2.1
               (create_shared_memory f s "/myshm" 1024).1.toNat) "/myshm").2) := by
      simp only [cMain]
      rw [if_neg hc]
    refine ⟨by rw [hm]; simp [hc], fun h => absurd h hc, fun _ => ?_⟩
    have hname2 : (findVal "/myshm"
        (create_shared_memory f s "/myshm" 1024).2.1.names).isSome = true := by
      rcases create_cases f s "/myshm" 1024 with h | ⟨_, _, h⟩
      · rw [h] at h0
        exact absurd h0 (by decide)
      · exact h
    refine ⟨by rw [hm], ?_, ?_⟩
    · rw [hm]
      simp only [unlink_fds, closeFd]
      exact findVal_delKey_self _ _
    · intro hu
      rw [hm]
      rcases Option.isSome_iff_exists.mp hname2 with ⟨o, ho⟩
      simp [unlink_shared_memory, shm_unlink, hu, closeFd, ho, findVal_delKey_self]

/-- Witness for C9 at concrete inputs: a fault-free run (create succeeds,
exit 0) instantiating both implications of the claim. -/
theorem C9_main_exit_status_witness :
    (((cMain noFaults shmInit).1 ≠ 0 ↔
        (create_shared_memory noFaults shmInit "/myshm" 1024).1 < 0) ∧
      ((create_shared_memory noFaults shmInit "/myshm" 1024).1 < 0 →
        cMain noFaults shmInit =
          (1, (create_shared_memory noFaults shmInit "/myshm" 1024).2.1,
              (create_shared_memory noFaults shmInit "/myshm" 1024).2.2)) ∧
      (0 ≤ (create_shared_memory noFaults shmInit "/myshm" 1024).1 →
        (cMain noFaults shmInit).1 = 0 ∧
        findVal (create_shared_memory noFaults shmInit "/myshm" 1024).1.toNat
          (cMain noFaults shmInit).2.1.fds = none ∧
        (noFaults.unlinkFail = false →
          findVal "/myshm" (cMain noFaults shmInit).2.1.names = none))) ∧
    (cMain noFaults shmInit).1 = 0 ∧
    findVal "/myshm" (cMain noFaults shmInit).2.1.names = none :=
  ⟨C9_main_exit_status noFaults shmInit,
   ((C9_main_exit_status noFaults shmInit).2.2 (by decide)).1,
   ((C9_main_exit_status noFaults shmInit).2.2 (by decide)).2.2 rfl⟩

/-- Claim C10: every failure mode of `create_shared_memory` collapses into
the single sentinel -1 — each run returns either -1 or a non-negative
descriptor that is open in the resulting state — and an open failure, a
resize failure, and a stat failure followed by a failed resize all produce
the same return value, indistinguishable to the caller. -/
theorem C10_single_sentinel :
    (∀ (f : Faults) (s : ShmState) (name : String) (size : Int),
      (create_shared_memory f s name size).1 = -1 ∨
      (0 ≤ (create_shared_memory f s name size).1 ∧
       (findVal (create_shared_memory f s name size).1.toNat
          (create_shared_memory f s name size).2.1.fds).isSome = true)) ∧
    (create_shared_memory ⟨true, false, false, false⟩ shmInit "/a" 5).1 =
      (create_shared_memory ⟨false, false, true, false⟩ shmInit "/a" 5).1 ∧
    (create_shared_memory ⟨false, true, true, false⟩ shmInit "/a" 5).1 =
      (create_shared_memory ⟨true, false, false, false⟩ shmInit "/a" 5).1 ∧
    (create_shared_memory ⟨true, false, false, false⟩ shmInit "/a" 5).1 = -1 := by
  refine ⟨?_, by decide, by decide, by decide⟩
  intro f s name size
  rcases create_cases f s name size with h | ⟨h1, h2, _⟩
  · exact Or.inl h
  · exact Or.inr ⟨h1, h2⟩

end ShmCreate
